import Mathlib

/-!
Verification development for the pibot state-manager layer
(`src/managers.py`, `src/config.py`).

Python dictionaries are embedded as insertion-ordered association lists,
Python `int` as `Int`, Python `None`-able values as `Option`, and the
per-manager `asyncio.Lock` critical sections as pure state-passing
functions (each manager method is a function from state to state plus
its return value).  `random.randint` is embedded as an injectable draw
oracle `draw : Nat → Int`; the fact that each draw lies in the item's
`[min_value, max_value]` range becomes a hypothesis of the theorems
about `sell_items`.
-/

namespace PiBot

/-! ### Association-list embedding of Python dictionaries -/

/-- `d.get(k)` / `k in d` backing lookup: first binding of key `k`. -/
def alistGet {α β : Type} [BEq α] (l : List (α × β)) (k : α) : Option β :=
  (l.find? (fun e => e.1 == k)).map (fun e => e.2)

/-- `d[k] = v`: replace the binding of `k` in place, or append it. -/
def alistSet {α β : Type} [BEq α] (l : List (α × β)) (k : α) (v : β) : List (α × β) :=
  if l.any (fun e => e.1 == k) then
    l.map (fun e => if e.1 == k then (k, v) else e)
  else
    l ++ [(k, v)]

/-- `d.pop(k, None)`: drop every binding of key `k`. -/
def alistPop {α β : Type} [BEq α] (l : List (α × β)) (k : α) : List (α × β) :=
  l.filter (fun e => !(e.1 == k))

/-- `d.get(k, 0)` for integer-valued dictionaries (inventories). -/
def alistGetD {α : Type} [BEq α] (l : List (α × Int)) (k : α) : Int :=
  (alistGet l k).getD 0

/-! ### Item catalog (`config.py`, `ITEM_DATA`) -/

/-- One `ITEM_DATA` entry.  Shop-only items have no `min_value`/`max_value`
in the source dictionary and sellable fish have no `price`, hence the
`Option` fields. -/
structure ItemInfo where
  name : String
  min_value : Option Int := none
  max_value : Option Int := none
  price : Option Int := none
  sellable : Bool
deriving Repr, DecidableEq

/-- `ITEM_DATA` from `src/config.py`. -/
def ITEM_DATA : List (String × ItemInfo) := [
  ("golden_potato", { name := "Golden Potato", min_value := some 30, max_value := some 30, sellable := true }),
  ("rainbow_trout", { name := "Rainbow Trout", min_value := some 15, max_value := some 22, sellable := true }),
  ("bass", { name := "Bass", min_value := some 18, max_value := some 19, sellable := true }),
  ("sunfish", { name := "Sunfish", min_value := some 17, max_value := some 20, sellable := true }),
  ("spearfish", { name := "Spearfish", min_value := some 25, max_value := some 32, sellable := true }),
  ("voltfish", { name := "Voltfish", min_value := some 27, max_value := some 36, sellable := true }),
  ("angel_o8", { name := "Angel_o8", min_value := some 5000, max_value := some 10000, sellable := true }),
  ("lockpick", { name := "Lockpick", price := some 50, sellable := false }),
  ("gun", { name := "Gun", price := some 150, sellable := false }),
  ("advanced_lockpick", { name := "Advanced Lockpick", price := some 500, sellable := false }),
  ("hacker_tool", { name := "Hacker Tool", price := some 1200, sellable := false }),
  ("mask", { name := "Mask", price := some 60, sellable := false }),
  ("license_plate_blocker", { name := "License Plate Blocker", price := some 500, sellable := false }),
  ("admin_itemitemitem", { name := "Volts Prize", price := some 9999999, sellable := false })
]

/-- `key in ITEM_DATA` / `ITEM_DATA[key]`. -/
def lookupItem (k : String) : Option ItemInfo :=
  alistGet ITEM_DATA k

/-! ### EconomyManager (`src/managers.py` lines 13-223)

The manager keys accounts by `(guild_id, str(user_id))`; every claim is
about a single account, and `_ensure_user` only routes to it, so the
embedding carries one account (the value `_ensure_user` returns) through
each method body. -/

/-- The per-user record `{"wallet": 0, "bank": 0, "inventory": {}}`. -/
structure Account where
  wallet : Int
  bank : Int
  inventory : List (String × Int)
deriving Repr, DecidableEq

/-- `EconomyManager.deposit` (lines 85-98), body after `_ensure_user`.
Returns the mutated account and the amount moved. -/
def deposit (a : Account) (amount : Option Int) : Account × Int :=
  if a.wallet ≤ 0 then (a, 0)
  else
    let depositAmount :=
      match amount with
      | none => a.wallet
      | some amt => if amt > a.wallet then a.wallet else amt
    if depositAmount ≤ 0 then (a, 0)
    else ({ a with wallet := a.wallet - depositAmount, bank := a.bank + depositAmount }, depositAmount)

/-- `EconomyManager.withdraw` (lines 100-113). -/
def withdraw (a : Account) (amount : Option Int) : Account × Int :=
  if a.bank ≤ 0 then (a, 0)
  else
    let withdrawAmount :=
      match amount with
      | none => a.bank
      | some amt => if amt > a.bank then a.bank else amt
    if withdrawAmount ≤ 0 then (a, 0)
    else ({ a with bank := a.bank - withdrawAmount, wallet := a.wallet + withdrawAmount }, withdrawAmount)

/-- `EconomyManager.add_wallet` (lines 115-119). -/
def add_wallet (a : Account) (amount : Int) : Account × Int :=
  let a' := { a with wallet := a.wallet + max 0 amount }
  (a', a'.wallet)

/-- `EconomyManager.add_bank` (lines 121-125). -/
def add_bank (a : Account) (amount : Int) : Account × Int :=
  let a' := { a with bank := a.bank + max 0 amount }
  (a', a'.bank)

/-- `EconomyManager.deduct_wallet` (lines 127-133). -/
def deduct_wallet (a : Account) (amount : Int) : Account × Bool :=
  if amount ≤ 0 ∨ a.wallet < amount then (a, false)
  else ({ a with wallet := a.wallet - amount }, true)

/-- `EconomyManager.has_items` (lines 212-216):
`all(inventory.get(key, 0) > 0 for key in item_keys)`. -/
def has_items (a : Account) (itemKeys : List String) : Bool :=
  itemKeys.all (fun key => alistGetD a.inventory key > 0)

/-- One call in a `deposit/withdraw/add_wallet/deduct_wallet` sequence. -/
inductive EconOp where
  | depositOp : Option Int → EconOp
  | withdrawOp : Option Int → EconOp
  | addWalletOp : Int → EconOp
  | deductWalletOp : Int → EconOp
deriving Repr, DecidableEq

/-- Effect of one `EconOp` on the account. -/
def applyEconOp (a : Account) (op : EconOp) : Account :=
  match op with
  | .depositOp amt => (deposit a amt).1
  | .withdrawOp amt => (withdraw a amt).1
  | .addWalletOp amt => (add_wallet a amt).1
  | .deductWalletOp amt => (deduct_wallet a amt).1

/-- Run a sequence of economy calls against one account. -/
def runEconOps (a : Account) (ops : List EconOp) : Account :=
  ops.foldl applyEconOp a

/-! ### `EconomyManager.sell_items` (lines 153-192)

`random.randint(min_value, max_value)` is embedded as an oracle
`draw : Nat → Int` consumed sequentially; `drawsUsed` counts the calls
made so far, mirroring the program position in the random stream. -/

/-- Mutable locals of `sell_items`: the inventory dict, the `details`
accumulator, `total_value`, and the position in the random stream. -/
structure SellState where
  inventory : List (String × Int)
  details : List (String × Int × Int)
  total_value : Int
  drawsUsed : Nat
deriving Repr, DecidableEq

/-- `for _ in range(qty): sold_value += random.randint(...)`: the sum of
`qty` consecutive draws starting at stream position `start`. -/
def drawSum (draw : Nat → Int) (start : Nat) : Nat → Int
  | 0 => 0
  | n + 1 => drawSum draw start n + draw (start + n)

/-- The inner closure `sell_specific(key, qty)` of `sell_items`
(lines 162-176).  `inventory[key] -= qty` is embedded with the
`.get(key, 0)` default; the source would raise on a missing key, but
both call sites guarantee the key is present. -/
def sellSpecific (draw : Nat → Int) (st : SellState) (key : String) (qty : Int) : SellState :=
  match lookupItem key with
  | none => st
  | some info =>
    if qty ≤ 0 then st
    else if !info.sellable then st
    else
      let n := qty.toNat
      let soldValue := drawSum draw st.drawsUsed n
      let inv1 := alistSet st.inventory key (alistGetD st.inventory key - qty)
      let inv2 := if alistGetD inv1 key ≤ 0 then alistPop inv1 key else inv1
      { inventory := inv2,
        details := st.details ++ [(key, qty, soldValue)],
        total_value := st.total_value + soldValue,
        drawsUsed := st.drawsUsed + n }

/-- Lines 190-192: credit the proceeds and repack the account. -/
def finishSale (a : Account) (st : SellState) : Account × List (String × Int × Int) × Int :=
  let wallet' := if st.total_value > 0 then a.wallet + st.total_value else a.wallet
  ({ a with wallet := wallet', inventory := st.inventory }, st.details, st.total_value)

/-- `EconomyManager.sell_items` (lines 153-192). -/
def sell_items (draw : Nat → Int) (a : Account) (itemKey : Option String) (quantity : Option Int) :
    Account × List (String × Int × Int) × Int :=
  if a.inventory.isEmpty then (a, [], 0)
  else
    let st0 : SellState :=
      { inventory := a.inventory, details := [], total_value := 0, drawsUsed := 0 }
    match itemKey with
    | none =>
      let st := a.inventory.foldl (fun s e => sellSpecific draw s e.1 e.2) st0
      finishSale a st
    | some key =>
      match alistGet a.inventory key with
      | none => (a, [], 0)
      | some available =>
        if available ≤ 0 then (a, [], 0)
        else
          let sellQuantity := match quantity with | none => available | some q => min q available
          if sellQuantity ≤ 0 then (a, [], 0)
          else finishSale a (sellSpecific draw st0 key sellQuantity)

example : deposit { wallet := 10, bank := 2, inventory := [] } (some 4) =
    ({ wallet := 6, bank := 6, inventory := [] }, 4) := by decide

example : withdraw { wallet := 6, bank := 6, inventory := [] } (some 4) =
    ({ wallet := 10, bank := 2, inventory := [] }, 4) := by decide

example : deduct_wallet { wallet := 100, bank := 0, inventory := [] } 50 =
    ({ wallet := 50, bank := 0, inventory := [] }, true) := by decide

example : deduct_wallet { wallet := 50, bank := 0, inventory := [] } 60 =
    ({ wallet := 50, bank := 0, inventory := [] }, false) := by decide

example : sell_items (fun _ => 18) { wallet := 0, bank := 0, inventory := [("bass", 5)] }
    (some "bass") (some 3) =
    ({ wallet := 54, bank := 0, inventory := [("bass", 2)] }, [("bass", 3, 54)], 54) := by decide

example : sell_items (fun _ => 18) { wallet := 7, bank := 0, inventory := [("lockpick", 2)] }
    (some "lockpick") none =
    ({ wallet := 7, bank := 0, inventory := [("lockpick", 2)] }, [], 0) := by decide

/-! ### GuildsManager (`src/managers.py` lines 333-604)

The manager keys everything by the Discord server id through
`_get_guilds`/`_get_user_guilds`; every claim lives inside one server, so
the embedding carries the two per-server dictionaries.  `user_guilds`
values are `Optional[str]`, so an absent key (`.get` returning `None`)
and a stored `None` are distinguished in the list but collapse under
`.get`, embedded by `Option.join`. -/

/-- One guild record as built by `create_guild` (lines 404-413). -/
structure GuildData where
  owner_id : Nat
  display_name : String
  image_url : String
  privacy : String
  password : Option String
  members : List Nat
  member_cap : Option Int
  created_at : String
deriving Repr, DecidableEq

/-- The two per-server dictionaries of `GuildsManager`. -/
structure GuildsState where
  guilds : List (String × GuildData)
  user_guilds : List (Nat × Option String)
deriving Repr, DecidableEq

/-- `user_guilds.get(user_id)`: `None` when the key is absent or the
stored value is `None`. -/
def userGuildEntry (s : GuildsState) (userId : Nat) : Option String :=
  (alistGet s.user_guilds userId).join

/-- `if guild["member_cap"] and len(guild["members"]) >= guild["member_cap"]`
(line 442).  Python truthiness: a `None` or `0` cap disables the check. -/
def capFull (g : GuildData) : Bool :=
  match g.member_cap with
  | none => false
  | some c => if c = 0 then false else decide (c ≤ (g.members.length : Int))

/-- `GuildsManager.create_guild` (lines 394-415).  `freshId` stands for
the `generate_guild_id()` value after the uniqueness retry loop, and
`createdAt` for `datetime.now(timezone.utc).isoformat()`. -/
def create_guild (s : GuildsState) (freshId : String) (ownerId : Nat)
    (displayName imageUrl privacy : String) (password : Option String) (createdAt : String) :
    GuildsState × Option String :=
  let g : GuildData :=
    { owner_id := ownerId, display_name := displayName, image_url := imageUrl,
      privacy := privacy, password := password, members := [ownerId],
      member_cap := none, created_at := createdAt }
  ({ guilds := alistSet s.guilds freshId g,
     user_guilds := alistSet s.user_guilds ownerId (some freshId) }, some freshId)

/-- `GuildsManager.get_guild` (lines 417-420). -/
def get_guild (s : GuildsState) (guildId : String) : Option GuildData :=
  alistGet s.guilds guildId

/-- `GuildsManager.get_user_guild` (lines 422-425). -/
def get_user_guild (s : GuildsState) (userId : Nat) : Option String :=
  userGuildEntry s userId

/-- `GuildsManager.join_guild` (lines 427-447). -/
def join_guild (s : GuildsState) (userId : Nat) (guildId : String) :
    GuildsState × Bool × Option String :=
  match alistGet s.user_guilds userId with
  | some (some _) => (s, false, some "You are already in a guild.")
  | _ =>
    match alistGet s.guilds guildId with
    | none => (s, false, some "Guild not found.")
    | some guild =>
      if userId ∈ guild.members then (s, false, some "You are already a member of this guild.")
      else if capFull guild then (s, false, some "This guild is full.")
      else
        ({ guilds := alistSet s.guilds guildId { guild with members := guild.members ++ [userId] },
           user_guilds := alistSet s.user_guilds userId (some guildId) }, true, none)

/-- `GuildsManager.leave_guild` (lines 449-471).  `if not guild_id`
covers both a missing entry and a falsy (empty) stored id.  In the
owner branch the source first removes the leaver from `members`, then
pops the index entry of each user still listed in `members` and drops
the guild record — so the owner's own index entry is never popped. -/
def leave_guild (s : GuildsState) (userId : Nat) : GuildsState × Bool :=
  match userGuildEntry s userId with
  | none => (s, false)
  | some gid =>
    if gid.isEmpty then (s, false)
    else
      match alistGet s.guilds gid with
      | none => ({ s with user_guilds := alistPop s.user_guilds userId }, true)
      | some guild =>
        let guild1 :=
          if userId ∈ guild.members then { guild with members := guild.members.erase userId }
          else guild
        if guild1.owner_id = userId then
          ({ guilds := alistPop s.guilds gid,
             user_guilds := guild1.members.foldl (fun ug m => alistPop ug m) s.user_guilds }, true)
        else
          ({ guilds := alistSet s.guilds gid guild1,
             user_guilds := alistPop s.user_guilds userId }, true)

/-- `GuildsManager.kick_member` (lines 473-494). -/
def kick_member (s : GuildsState) (ownerId targetId : Nat) :
    GuildsState × Bool × Option String :=
  match userGuildEntry s ownerId with
  | none => (s, false, some "You are not in a guild.")
  | some gid =>
    if gid.isEmpty then (s, false, some "You are not in a guild.")
    else
      match alistGet s.guilds gid with
      | none => (s, false, some "You are not the owner of this guild.")
      | some guild =>
        if guild.owner_id ≠ ownerId then (s, false, some "You are not the owner of this guild.")
        else if targetId ∉ guild.members then (s, false, some "User is not a member of this guild.")
        else if targetId = ownerId then (s, false, some "You cannot kick yourself.")
        else
          ({ guilds := alistSet s.guilds gid { guild with members := guild.members.erase targetId },
             user_guilds := alistPop s.user_guilds targetId }, true, none)

/-- `GuildsManager.transfer_ownership` (lines 496-516). -/
def transfer_ownership (s : GuildsState) (ownerId newOwnerId : Nat) :
    GuildsState × Bool × Option String :=
  match userGuildEntry s ownerId with
  | none => (s, false, some "You are not in a guild.")
  | some gid =>
    if gid.isEmpty then (s, false, some "You are not in a guild.")
    else
      match alistGet s.guilds gid with
      | none => (s, false, some "You are not the owner of this guild.")
      | some guild =>
        if guild.owner_id ≠ ownerId then (s, false, some "You are not the owner of this guild.")
        else if newOwnerId ∉ guild.members then (s, false, some "User is not a member of this guild.")
        else if newOwnerId = ownerId then (s, false, some "You are already the owner.")
        else
          ({ s with guilds := alistSet s.guilds gid { guild with owner_id := newOwnerId } },
           true, none)

/-- `GuildsManager.disband_guild` (lines 518-534).  Unlike the owner
branch of `leave_guild`, the owner is still in `members` here, so every
member's index entry — the owner's included — is popped. -/
def disband_guild (s : GuildsState) (ownerId : Nat) : GuildsState × Bool :=
  match userGuildEntry s ownerId with
  | none => (s, false)
  | some gid =>
    if gid.isEmpty then (s, false)
    else
      match alistGet s.guilds gid with
      | none => (s, false)
      | some guild =>
        if guild.owner_id ≠ ownerId then (s, false)
        else
          ({ guilds := alistPop s.guilds gid,
             user_guilds := guild.members.foldl (fun ug m => alistPop ug m) s.user_guilds }, true)

/-! ### AchievementsManager (`src/managers.py` lines 607-678)

State is keyed by `(guild_id, user_id)`; the claims are about one
user's unlocked set, embedded as the list of keys in insertion order
(`set.add` appends only when the key is new, which the method itself
guards). -/

/-- `AchievementsManager.unlock_achievement` (lines 660-672), body after
the two auto-vivification steps. -/
def unlock_achievement (unlocked : List String) (key : String) : List String × Bool :=
  if key ∈ unlocked then (unlocked, false)
  else (unlocked ++ [key], true)

/-- `n` consecutive `unlock_achievement` calls with the same key. -/
def unlockN (unlocked : List String) (key : String) : Nat → List String
  | 0 => unlocked
  | n + 1 => (unlock_achievement (unlockN unlocked key n) key).1

/-! ### `EconomyManager.load` (lines 29-58)

The JSON document is embedded post-parse: `none` stands for a missing
file or any exception raised while reading/parsing/converting (the
`try`/`except` resets to empty state), `hasGuildsKey` for the
`"guilds" in data` format sniff (the old format is discarded). -/

/-- One raw user payload: `payload.get("wallet", 0)` etc. already
applied by the parse. -/
structure RawUser where
  wallet : Int
  bank : Int
  inventory : List (String × Int)
deriving Repr, DecidableEq

/-- A parsed economy document. -/
structure RawEconomyDoc where
  hasGuildsKey : Bool
  guilds : List (Nat × List (String × RawUser))
deriving Repr, DecidableEq

/-- The per-user sanitation loop of `load` (lines 45-53). -/
def loadUserAccount (p : RawUser) : Account :=
  { wallet := max 0 p.wallet,
    bank := max 0 p.bank,
    inventory := (p.inventory.filter (fun e => (lookupItem e.1).isSome)).map
      (fun e => (e.1, max 0 e.2)) }

/-- `EconomyManager.load` (lines 29-58) as a function from the parsed
document to the `guilds` mapping it installs. -/
def economyLoad (input : Option RawEconomyDoc) : List (Nat × List (String × Account)) :=
  match input with
  | none => []
  | some d =>
    if d.hasGuildsKey then
      d.guilds.map (fun gp => (gp.1, gp.2.map (fun up => (up.1, loadUserAccount up.2))))
    else []

/-! ## Shared lemmas -/

/-- A successful dictionary lookup exhibits a binding of the list. -/
theorem alistGet_mem {α β : Type} [BEq α] [LawfulBEq α] {l : List (α × β)} {k : α} {v : β}
    (h : alistGet l k = some v) : (k, v) ∈ l := by
  unfold alistGet at h
  cases hf : l.find? (fun e => e.1 == k) with
  | none => rw [hf] at h; cases h
  | some e =>
    rw [hf] at h
    have he : e ∈ l := List.mem_of_find?_eq_some hf
    have hk0 := List.find?_some hf
    have hk' : e.1 = k := eq_of_beq (by simpa using hk0)
    have hv : e.2 = v := by
      simpa using h
    have : (k, v) = e := by
      cases e; simp_all
    rw [this]; exact he

/-- A successful lookup means the dictionary is non-empty. -/
theorem alistGet_ne_empty {α β : Type} [BEq α] {l : List (α × β)} {k : α} {v : β}
    (h : alistGet l k = some v) : l.isEmpty = false := by
  cases l with
  | nil => simp [alistGet, List.find?] at h
  | cons _ _ => rfl

/-- Looking up the key just written returns the written value. -/
theorem alistGet_set_self {α β : Type} [BEq α] [LawfulBEq α] (l : List (α × β)) (k : α) (v : β) :
    alistGet (alistSet l k v) k = some v := by
  induction l with
  | nil => simp [alistSet, alistGet, List.find?]
  | cons e t ih =>
    by_cases he : (e.1 == k) = true
    · simp [alistSet, alistGet, List.find?, List.any_cons, he]
    · have hany : (e :: t).any (fun x => x.1 == k) = t.any (fun x => x.1 == k) := by
        simp [List.any_cons, he]
      by_cases ht : t.any (fun x => x.1 == k) = true
      · unfold alistSet at ih ⊢
        rw [hany, if_pos ht]
        rw [if_pos ht] at ih
        simpa [alistGet, List.find?, he] using ih
      · unfold alistSet at ih ⊢
        rw [hany, if_neg ht]
        rw [if_neg ht] at ih
        simpa [alistGet, List.find?, he] using ih

/-- Replacing the bindings of key `k` in place, then filtering `k` out,
is the same as filtering `k` out of the original list. -/
theorem filter_map_replace {α β : Type} [BEq α] [LawfulBEq α] (l : List (α × β)) (k : α) (v : β) :
    List.filter (fun e => !(e.1 == k)) (l.map (fun e => if e.1 == k then (k, v) else e)) =
      List.filter (fun e => !(e.1 == k)) l := by
  induction l with
  | nil => rfl
  | cons e t ih =>
    by_cases he : (e.1 == k) = true
    · simpa [List.filter, he, beq_self_eq_true] using ih
    · simpa [List.filter, he] using ih

/-- Writing a key and then popping it is popping it from the original. -/
theorem alistPop_set_self {α β : Type} [BEq α] [LawfulBEq α] (l : List (α × β)) (k : α) (v : β) :
    alistPop (alistSet l k v) k = alistPop l k := by
  unfold alistSet
  by_cases hany : l.any (fun e => e.1 == k) = true
  · rw [if_pos hany]
    exact filter_map_replace l k v
  · rw [if_neg hany]
    simp [alistPop, List.filter_append]

/-- Bounds on a block of consecutive draws, from per-draw bounds. -/
theorem drawSum_bounds (draw : Nat → Int) (lo hiv : Int)
    (hd : ∀ i, lo ≤ draw i ∧ draw i ≤ hiv) (start : Nat) :
    ∀ n : Nat, (n : Int) * lo ≤ drawSum draw start n ∧ drawSum draw start n ≤ (n : Int) * hiv := by
  intro n
  induction n with
  | zero => simp [drawSum]
  | succ m ih =>
    have h := hd (start + m)
    simp only [drawSum]
    push_cast
    constructor <;> nlinarith [ih.1, ih.2, h.1, h.2]

/-! ## Guild scenarios used by the `leave_guild` theorems -/

/-- The empty per-server guild state. -/
def emptyGuilds : GuildsState := { guilds := [], user_guilds := [] }

/-- User 1 creates a guild. -/
def demoAfterCreate : GuildsState :=
  (create_guild emptyGuilds "ABC123" 1 "Alpha" "img" "public" none "t0").1

/-- Users 2 and 3 join, making a 3-member guild owned by user 1. -/
def demoAfterJoins : GuildsState :=
  (join_guild (join_guild demoAfterCreate 2 "ABC123").1 3 "ABC123").1

/-- The owner (user 1) then leaves the 3-member guild. -/
def demoAfterOwnerLeave : GuildsState :=
  (leave_guild demoAfterJoins 1).1

/-- The owner leaves the guild they just created (sole member). -/
def demoSoloOwnerLeave : GuildsState :=
  (leave_guild demoAfterCreate 1).1

/-! ## Claims -/

/-- Claim C1.  When the owner of a 3-member guild calls `leave_guild`,
the guild record is removed and the other members' index entries are
cleared — but the owner is removed from `members` before the disband
loop, so the owner's own user→guild index entry survives and
`get_user_guild` returns the stale guild id for the owner instead of
none.  This contradicts the claim (and the spec), exhibiting the code
bug at a concrete reachable state. -/
theorem leave_guild_owner_stale_index :
    (leave_guild demoAfterJoins 1).2 = true ∧
    get_guild demoAfterOwnerLeave "ABC123" = none ∧
    get_user_guild demoAfterOwnerLeave 2 = none ∧
    get_user_guild demoAfterOwnerLeave 3 = none ∧
    get_user_guild demoAfterOwnerLeave 1 = some "ABC123" := by decide

/-- Claim C2.  The user→guild index does not stay consistent with guild
membership on all reachable states: after `create_guild` followed by the
owner's `leave_guild` (a two-call trace from the empty state), user 1's
index entry still names guild "ABC123" although that guild was removed
from the registry, so user 1 is a member of no guild while the index
says otherwise.  This refutes the claimed invariant. -/
theorem guild_index_inconsistency_reachable :
    get_user_guild demoSoloOwnerLeave 1 = some "ABC123" ∧
    get_guild demoSoloOwnerLeave "ABC123" = none ∧
    ¬ (∀ u gid, get_user_guild demoSoloOwnerLeave u = some gid →
        ∃ g, get_guild demoSoloOwnerLeave gid = some g ∧ u ∈ g.members) := by
  refine ⟨by decide, by decide, fun hcons => ?_⟩
  obtain ⟨g, hg, -⟩ := hcons 1 "ABC123" (by decide)
  have h0 : get_guild demoSoloOwnerLeave "ABC123" = none := by decide
  rw [h0] at hg
  exact Option.noConfusion hg

/-- One `deposit`/`withdraw`/`add_wallet`/`deduct_wallet` call keeps a
non-negative wallet and bank non-negative. -/
theorem applyEconOp_nonneg (a : Account) (op : EconOp)
    (hw : 0 ≤ a.wallet) (hb : 0 ≤ a.bank) :
    0 ≤ (applyEconOp a op).wallet ∧ 0 ≤ (applyEconOp a op).bank := by
  obtain ⟨w, b, inv⟩ := a
  dsimp only at hw hb
  cases op with
  | depositOp amt =>
    cases amt <;>
      (simp only [applyEconOp, deposit] at *
       split_ifs <;> constructor <;> simp_all <;> omega)
  | withdrawOp amt =>
    cases amt <;>
      (simp only [applyEconOp, withdraw] at *
       split_ifs <;> constructor <;> simp_all <;> omega)
  | addWalletOp amt =>
    exact ⟨add_nonneg hw (le_max_left 0 amt), hb⟩
  | deductWalletOp amt =>
    simp only [applyEconOp, deduct_wallet] at *
    split_ifs <;> constructor <;> simp_all

/-- Claim C3.  Starting from a user state with non-negative wallet and
bank, every sequence of `deposit`, `withdraw`, `add_wallet` and
`deduct_wallet` calls (with arbitrary integer or `None` amounts) keeps
both wallet and bank non-negative. -/
theorem econ_nonneg_invariant (ops : List EconOp) (a : Account)
    (hw : 0 ≤ a.wallet) (hb : 0 ≤ a.bank) :
    0 ≤ (runEconOps a ops).wallet ∧ 0 ≤ (runEconOps a ops).bank := by
  induction ops generalizing a with
  | nil => exact ⟨hw, hb⟩
  | cons op rest ih =>
    have h := applyEconOp_nonneg a op hw hb
    exact ih (applyEconOp a op) h.1 h.2

/-- Witness for C3 on a concrete account and call sequence. -/
theorem econ_nonneg_invariant_witness :
    0 ≤ (runEconOps { wallet := 5, bank := 0, inventory := [] }
      [EconOp.depositOp (some 2), EconOp.withdrawOp none,
       EconOp.addWalletOp (-3), EconOp.deductWalletOp 1]).wallet ∧
    0 ≤ (runEconOps { wallet := 5, bank := 0, inventory := [] }
      [EconOp.depositOp (some 2), EconOp.withdrawOp none,
       EconOp.addWalletOp (-3), EconOp.deductWalletOp 1]).bank :=
  econ_nonneg_invariant _ _ (by decide) (by decide)

/-- Claim C4.  On a user state with non-negative wallet and bank,
`deposit(amount)` followed immediately by `withdraw(amount)` with
`amount ≤ wallet` restores the original wallet/bank split exactly. -/
theorem deposit_withdraw_round_trip (a : Account) (amt : Int)
    (hw : 0 ≤ a.wallet) (hb : 0 ≤ a.bank) (hle : amt ≤ a.wallet) :
    (withdraw (deposit a (some amt)).1 (some amt)).1 = a := by
  obtain ⟨w, b, inv⟩ := a
  dsimp only at hw hb hle
  rcases le_or_lt amt 0 with hamt | hamt
  · have hd : (deposit ⟨w, b, inv⟩ (some amt)).1 = ⟨w, b, inv⟩ := by
      simp only [deposit]
      split_ifs <;> first | rfl | (exfalso; omega)
    rw [hd]
    simp only [withdraw]
    split_ifs <;> first | rfl | (exfalso; omega)
  · have hd : (deposit ⟨w, b, inv⟩ (some amt)).1 = ⟨w - amt, b + amt, inv⟩ := by
      simp only [deposit]
      split_ifs <;> first | rfl | (exfalso; omega)
    rw [hd]
    simp only [withdraw]
    split_ifs <;>
      first
        | (exfalso; omega)
        | (dsimp only; simp only [Account.mk.injEq]; refine ⟨by omega, by omega, trivial⟩)

/-- Witness for C4 at wallet 10, bank 2, amount 4. -/
theorem deposit_withdraw_round_trip_witness :
    (withdraw (deposit { wallet := 10, bank := 2, inventory := [] } (some 4)).1 (some 4)).1 =
      { wallet := 10, bank := 2, inventory := [] } :=
  deposit_withdraw_round_trip { wallet := 10, bank := 2, inventory := [] } 4
    (by decide) (by decide) (by decide)

/-- Claim C5.  `deduct_wallet` returns false and mutates nothing when
the amount is non-positive or exceeds the wallet; otherwise it debits
exactly the amount from the wallet, returns true, and leaves bank and
inventory untouched. -/
theorem deduct_wallet_spec (a : Account) (amt : Int) :
    ((amt ≤ 0 ∨ a.wallet < amt) → deduct_wallet a amt = (a, false)) ∧
    (0 < amt → amt ≤ a.wallet →
      deduct_wallet a amt = ({ a with wallet := a.wallet - amt }, true)) := by
  constructor
  · intro h
    simp only [deduct_wallet, if_pos h]
  · intro h1 h2
    simp only [deduct_wallet]
    rw [if_neg (by omega)]

/-- Witness for C5: the spec scenario with wallet 100, then 50, 60. -/
theorem deduct_wallet_spec_witness :
    deduct_wallet { wallet := 100, bank := 0, inventory := [] } 50 =
      ({ wallet := 50, bank := 0, inventory := [] }, true) ∧
    deduct_wallet { wallet := 50, bank := 0, inventory := [] } 60 =
      ({ wallet := 50, bank := 0, inventory := [] }, false) :=
  ⟨(deduct_wallet_spec { wallet := 100, bank := 0, inventory := [] } 50).2
      (by decide) (by decide),
   (deduct_wallet_spec { wallet := 50, bank := 0, inventory := [] } 60).1
      (Or.inr (by decide))⟩

/-- Claim C7.  Joining a guild whose positive `member_cap` is already
reached by its members list fails with "This guild is full." and leaves
the state (registry and user→guild index) untouched, for any user who
is in no guild (no index entry and member of no guild's list). -/
theorem join_guild_full_rejected (s : GuildsState) (u : Nat) (gid : String)
    (g : GuildData) (c : Int)
    (hg : alistGet s.guilds gid = some g)
    (hcap : g.member_cap = some c) (hc : 0 < c)
    (hlen : (g.members.length : Int) = c)
    (hu : get_user_guild s u = none)
    (hnm : ∀ p ∈ s.guilds, u ∉ p.2.members) :
    join_guild s u gid = (s, false, some "This guild is full.") := by
  have humem : u ∉ g.members := hnm (gid, g) (alistGet_mem hg)
  have hfull : capFull g = true := by
    have h1 : capFull g = if c = 0 then false else decide (c ≤ (g.members.length : Int)) := by
      unfold capFull
      rw [hcap]
    rw [h1, if_neg (by omega : ¬ c = 0)]
    exact decide_eq_true (by omega)
  unfold join_guild
  split
  · next heq =>
    exfalso
    unfold get_user_guild userGuildEntry at hu
    rw [heq] at hu
    exact Option.noConfusion hu
  · next hne =>
    split
    · next heq => rw [heq] at hg; exact Option.noConfusion hg
    · next guild heq =>
      rw [heq] at hg
      injection hg with hgg
      subst hgg
      rw [if_neg humem, if_pos hfull]

/-- A full six-member guild for the C7 witness. -/
def fullGuild : GuildData :=
  { owner_id := 1, display_name := "Alpha", image_url := "img", privacy := "public",
    password := none, members := [1, 2, 3, 4, 5, 6], member_cap := some 6,
    created_at := "t0" }

/-- Server state holding `fullGuild` with a consistent index. -/
def fullState : GuildsState :=
  { guilds := [("ABC123", fullGuild)],
    user_guilds := [(1, some "ABC123"), (2, some "ABC123"), (3, some "ABC123"),
                    (4, some "ABC123"), (5, some "ABC123"), (6, some "ABC123")] }

/-- Witness for C7: a seventh user bounces off the cap of 6. -/
theorem join_guild_full_rejected_witness :
    join_guild fullState 7 "ABC123" = (fullState, false, some "This guild is full.") :=
  join_guild_full_rejected fullState 7 "ABC123" fullGuild 6
    (by decide) (by decide) (by decide) (by decide) (by decide) (by decide)

/-- Claim C8.  `unlock_achievement` returns true exactly when the key
was not yet unlocked; after any positive number of calls with the same
key the unlocked set holds the key exactly once; and a second
consecutive call never returns true.  The hypothesis `count ≤ 1` states
that the starting list represents a Python set. -/
theorem unlock_achievement_first_time_only (s : List String) (k : String)
    (hset : s.count k ≤ 1) :
    ((unlock_achievement s k).2 = true ↔ k ∉ s) ∧
    (∀ n, 1 ≤ n → (unlockN s k n).count k = 1) ∧
    (unlock_achievement (unlock_achievement s k).1 k).2 = false := by
  have hstep : ∀ t : List String, t.count k = 1 → (unlockN t k 1).count k = 1 := by
    intro t ht
    have hmem : k ∈ t := by
      rw [← List.count_pos_iff]
      omega
    simp [unlockN, unlock_achievement, hmem, ht]
  have hone : (unlockN s k 1).count k = 1 := by
    by_cases hmem : k ∈ s
    · have h1 : 1 ≤ s.count k := List.count_pos_iff.mpr hmem
      simp [unlockN, unlock_achievement, hmem]
      omega
    · have h0 : s.count k = 0 := List.count_eq_zero.mpr hmem
      simp [unlockN, unlock_achievement, hmem, h0]
  have hN : ∀ n, 1 ≤ n → (unlockN s k n).count k = 1 := by
    intro n hn
    induction n with
    | zero => omega
    | succ m ih =>
      rcases Nat.eq_or_lt_of_le hn with h1 | h1
      · rw [← h1]; exact hone
      · have hm : 1 ≤ m := by omega
        have hmc := ih hm
        have : unlockN s k (m + 1) = (unlock_achievement (unlockN s k m) k).1 := rfl
        rw [this]
        have hmem : k ∈ unlockN s k m := by
          rw [← List.count_pos_iff]
          omega
        simp [unlock_achievement, hmem, hmc]
  refine ⟨?_, hN, ?_⟩
  · by_cases hmem : k ∈ s <;> simp [unlock_achievement, hmem]
  · have hmem1 : k ∈ (unlock_achievement s k).1 := by
      by_cases hmem : k ∈ s <;> simp [unlock_achievement, hmem]
    obtain ⟨t, ht⟩ : ∃ t, (unlock_achievement s k).1 = t := ⟨_, rfl⟩
    rw [ht] at hmem1 ⊢
    simp [unlock_achievement, hmem1]

/-- Witness for C8 with the spec's "guildeer" key on a fresh user. -/
theorem unlock_achievement_first_time_only_witness :
    ((unlock_achievement [] "guildeer").2 = true ↔ "guildeer" ∉ ([] : List String)) ∧
    (∀ n, 1 ≤ n → (unlockN [] "guildeer" n).count "guildeer" = 1) ∧
    (unlock_achievement (unlock_achievement [] "guildeer").1 "guildeer").2 = false :=
  unlock_achievement_first_time_only [] "guildeer" (by decide)

/-- Claim C9.  `has_items` is the conjunction of per-key presence
(`count > 0`) over the requested keys, with no quantity accounting: a
list naming the same key twice is satisfied by a single held unit. -/
theorem has_items_presence_only (a : Account) (keys : List String) :
    (has_items a keys = true ↔ ∀ k ∈ keys, 0 < alistGetD a.inventory k) ∧
    (∀ k, 0 < alistGetD a.inventory k → has_items a [k, k] = true) := by
  constructor
  · simp [has_items, List.all_eq_true]
  · intro k hk
    simp [has_items, hk]

/-- Witness for C9: one bass satisfies the duplicated request. -/
theorem has_items_presence_only_witness :
    has_items { wallet := 0, bank := 0, inventory := [("bass", 1)] } ["bass", "bass"] = true :=
  (has_items_presence_only { wallet := 0, bank := 0, inventory := [("bass", 1)] }
      ["bass", "bass"]).2 "bass" (by decide)

/-- Boolean account invariant checked by the load theorem: wallet and
bank non-negative, every inventory key in the catalog with a
non-negative count. -/
def accountSane (a : Account) : Bool :=
  decide (0 ≤ a.wallet) && decide (0 ≤ a.bank) &&
    a.inventory.all (fun e => (lookupItem e.1).isSome && decide (0 ≤ e.2))

/-- Claim C10.  For every parsed input document (`none` standing for a
missing file or a parse/convert failure), `load` produces a state whose
every account is sane — wallet and bank clamped with `max 0`, inventory
keys outside `ITEM_DATA` dropped, kept counts clamped non-negative —
and the failure case yields the empty state. -/
theorem economy_load_sanitizes (input : Option RawEconomyDoc) :
    ((economyLoad input).all (fun gp => gp.2.all (fun up => accountSane up.2)) = true) ∧
    economyLoad none = [] ∧
    (∀ p : RawUser,
      (loadUserAccount p).wallet = max 0 p.wallet ∧
      (loadUserAccount p).bank = max 0 p.bank ∧
      (loadUserAccount p).inventory =
        (p.inventory.filter (fun e => (lookupItem e.1).isSome)).map
          (fun e => (e.1, max 0 e.2))) := by
  refine ⟨?_, rfl, fun p => ⟨rfl, rfl, rfl⟩⟩
  cases input with
  | none => rfl
  | some d =>
    obtain ⟨hk, gl⟩ := d
    cases hk with
    | false => rfl
    | true =>
      show ((gl.map (fun gp => (gp.1, gp.2.map (fun up => (up.1, loadUserAccount up.2))))).all
        (fun gp => gp.2.all (fun up => accountSane up.2))) = true
      simp only [List.all_eq_true]
      intro gp hgp
      obtain ⟨rp, hrp, hgpeq⟩ := List.mem_map.mp hgp
      subst hgpeq
      simp only [List.all_eq_true]
      intro up hup
      obtain ⟨ru, hru, hupeq⟩ := List.mem_map.mp hup
      subst hupeq
      simp only [accountSane, loadUserAccount, Bool.and_eq_true, decide_eq_true_eq,
        List.all_eq_true]
      refine ⟨⟨le_max_left 0 _, le_max_left 0 _⟩, ?_⟩
      intro e he
      obtain ⟨e0, he0, heeq⟩ := List.mem_map.mp he
      subst heeq
      have hf := (List.mem_filter.mp he0).2
      exact ⟨hf, by simp [le_max_left]⟩

/-! ## Claim C6: `sell_items` with a specific key -/

/-- The sold count asserted by the claim, `min(q or h, h)`, read with
Python `or` semantics (`None` and `0` are falsy, negative ints truthy). -/
def claimSoldCount (q : Option Int) (held : Int) : Int :=
  min (match q with | none => held | some m => if m = 0 then held else m) held

/-- The sold count the code implements: everything held when the
quantity is omitted, `min q held` for a positive requested quantity,
and nothing at all for a non-positive requested quantity. -/
def amendedSoldCount (q : Option Int) (held : Int) : Int :=
  match q with
  | none => held
  | some m => if m ≤ 0 then 0 else min m held

/-- Running `sell_specific` on a fresh `SellState` over a present,
sellable key with a positive quantity. -/
theorem sellSpecific_run (draw : Nat → Int) (inv : List (String × Int)) (k : String)
    (info : ItemInfo) (held qty : Int)
    (hmem : alistGet inv k = some held)
    (hitem : lookupItem k = some info) (hsell : info.sellable = true)
    (hqty : 0 < qty) :
    sellSpecific draw { inventory := inv, details := [], total_value := 0, drawsUsed := 0 } k qty =
      { inventory := if held - qty ≤ 0 then alistPop inv k else alistSet inv k (held - qty),
        details := [(k, qty, drawSum draw 0 qty.toNat)],
        total_value := drawSum draw 0 qty.toNat,
        drawsUsed := qty.toNat } := by
  have hgd : alistGetD inv k = held := by simp [alistGetD, hmem]
  have hgd2 : alistGetD (alistSet inv k (held - qty)) k = held - qty := by
    simp [alistGetD, alistGet_set_self]
  unfold sellSpecific
  rw [hitem]
  simp only [hsell, Bool.not_true, hgd, hgd2]
  rw [if_neg (by omega : ¬ qty ≤ 0), if_neg (by simp : ¬ false = true)]
  by_cases hz : held - qty ≤ 0
  · rw [if_pos hz, if_pos hz, alistPop_set_self]
    simp
  · rw [if_neg hz, if_neg hz]
    simp

/-- Claim C6, counterexample to the universally quantified sold-count
formula `min(q or h, h)`: with 5 bass held, a requested quantity of 0
makes the formula claim 5 units sold (Python `or`: `0` is falsy), and a
requested quantity of -1 makes the plain-min reading claim -1 units
sold; the code sells nothing in both cases and returns `([], 0)` with
the account unchanged. -/
theorem sell_items_nonpositive_qty_cex :
    claimSoldCount (some 0) 5 = 5 ∧
    sell_items (fun _ => 18) { wallet := 0, bank := 0, inventory := [("bass", 5)] }
      (some "bass") (some 0) =
      ({ wallet := 0, bank := 0, inventory := [("bass", 5)] }, [], 0) ∧
    sell_items (fun _ => 18) { wallet := 0, bank := 0, inventory := [("bass", 5)] }
      (some "bass") (some (-1)) =
      ({ wallet := 0, bank := 0, inventory := [("bass", 5)] }, [], 0) := by
  decide

/-- Claim C6 as amended.  For a user holding `held > 0` units of a
sellable catalog item `k` with value range `[lo, hig]` and per-unit
draws in that range: a non-positive requested quantity sells nothing
and returns `([], 0)`; otherwise the code removes exactly
`amendedSoldCount q held` units (all of them when the quantity is
omitted, `min q held` for positive `q`), pruning the entry when it
reaches zero, returns a total equal to the sum of that many draws —
hence between `n*lo` and `n*hig` — and credits exactly that total to
the wallet in the same operation, leaving the bank alone. -/
theorem sell_items_specific_key_spec (draw : Nat → Int) (a : Account) (k : String)
    (info : ItemInfo) (held lo hig : Int) (q : Option Int)
    (hmem : alistGet a.inventory k = some held) (hpos : 0 < held)
    (hitem : lookupItem k = some info) (hsell : info.sellable = true)
    (_hlo : info.min_value = some lo) (_hhig : info.max_value = some hig)
    (hlopos : 0 < lo)
    (hd : ∀ i, lo ≤ draw i ∧ draw i ≤ hig) :
    (amendedSoldCount q held = 0 → sell_items draw a (some k) q = (a, [], 0)) ∧
    (0 < amendedSoldCount q held →
      (sell_items draw a (some k) q).2.2 =
        drawSum draw 0 (amendedSoldCount q held).toNat ∧
      amendedSoldCount q held * lo ≤ (sell_items draw a (some k) q).2.2 ∧
      (sell_items draw a (some k) q).2.2 ≤ amendedSoldCount q held * hig ∧
      (sell_items draw a (some k) q).1.wallet = a.wallet + (sell_items draw a (some k) q).2.2 ∧
      (sell_items draw a (some k) q).1.bank = a.bank ∧
      (sell_items draw a (some k) q).2.1 =
        [(k, amendedSoldCount q held, (sell_items draw a (some k) q).2.2)] ∧
      (sell_items draw a (some k) q).1.inventory =
        (if amendedSoldCount q held = held then alistPop a.inventory k
         else alistSet a.inventory k (held - amendedSoldCount q held))) := by
  have hempty : a.inventory.isEmpty = false := alistGet_ne_empty hmem
  have hkey : ∀ sq : Int, 0 < sq → sq ≤ held →
      sell_items draw a (some k) (some sq) =
        finishSale a (sellSpecific draw
          { inventory := a.inventory, details := [], total_value := 0, drawsUsed := 0 } k sq) := by
    intro sq h1 h2
    unfold sell_items
    simp only [hempty, hmem]
    rw [if_neg (by simp : ¬ false = true), if_neg (by omega : ¬ held ≤ 0)]
    have hmin : min sq held = sq := by omega
    rw [hmin, if_neg (by omega : ¬ sq ≤ 0)]
  have hkeyNone :
      sell_items draw a (some k) none =
        finishSale a (sellSpecific draw
          { inventory := a.inventory, details := [], total_value := 0, drawsUsed := 0 } k held) := by
    unfold sell_items
    simp only [hempty, hmem]
    rw [if_neg (by simp : ¬ false = true), if_neg (by omega : ¬ held ≤ 0),
      if_neg (by omega : ¬ held ≤ 0)]
  have hmain : ∀ sq : Int, 0 < sq → sq ≤ held →
      sell_items draw a (some k) (some sq) =
        ({ a with
            wallet := a.wallet + drawSum draw 0 sq.toNat,
            inventory := if held - sq ≤ 0 then alistPop a.inventory k
                         else alistSet a.inventory k (held - sq) },
         [(k, sq, drawSum draw 0 sq.toNat)], drawSum draw 0 sq.toNat) := by
    intro sq h1 h2
    have hrun := sellSpecific_run draw a.inventory k info held sq hmem hitem hsell h1
    have hb := drawSum_bounds draw lo hig hd 0 sq.toNat
    have hn1 : (1 : Int) ≤ (sq.toNat : Int) := by omega
    have htpos : 0 < drawSum draw 0 sq.toNat := by
      have : (sq.toNat : Int) * lo ≤ drawSum draw 0 sq.toNat := hb.1
      nlinarith
    rw [hkey sq h1 h2, hrun]
    unfold finishSale
    rw [if_pos (by exact htpos)]
  rcases q with _ | m
  · -- quantity omitted: sell everything held
    have hn : amendedSoldCount none held = held := rfl
    constructor
    · intro h0
      rw [hn] at h0
      omega
    · intro _
      rw [hn]
      have hrun := sellSpecific_run draw a.inventory k info held held hmem hitem hsell hpos
      have hb := drawSum_bounds draw lo hig hd 0 held.toNat
      have htpos : 0 < drawSum draw 0 held.toNat := by
        have h1 : (1 : Int) ≤ (held.toNat : Int) := by omega
        have := hb.1
        nlinarith
      have heq : sell_items draw a (some k) none =
          ({ a with
              wallet := a.wallet + drawSum draw 0 held.toNat,
              inventory := alistPop a.inventory k },
           [(k, held, drawSum draw 0 held.toNat)], drawSum draw 0 held.toNat) := by
        rw [hkeyNone, hrun, if_pos (by omega : held - held ≤ 0)]
        unfold finishSale
        rw [if_pos (by exact htpos)]
      rw [heq]
      have hcast : ((held.toNat : Int)) = held := by omega
      refine ⟨rfl, ?_, ?_, rfl, rfl, rfl, ?_⟩
      · have := hb.1; rw [hcast] at this; exact this
      · have := hb.2; rw [hcast] at this; exact this
      · rw [if_pos rfl]
  · by_cases hm : m ≤ 0
    · -- non-positive requested quantity: no-op
      have hn : amendedSoldCount (some m) held = 0 := by
        simp [amendedSoldCount, hm]
      constructor
      · intro _
        unfold sell_items
        simp only [hempty, hmem]
        rw [if_neg (by simp : ¬ false = true), if_neg (by omega : ¬ held ≤ 0)]
        have hmin : min m held = m := by omega
        rw [hmin, if_pos (by omega : m ≤ 0)]
      · intro hcon
        rw [hn] at hcon
        omega
    · -- positive requested quantity: sell min of requested and held
      have hn : amendedSoldCount (some m) held = min m held := by
        simp [amendedSoldCount, hm]
      have h1 : 0 < min m held := by omega
      have h2 : min m held ≤ held := by omega
      constructor
      · intro h0
        rw [hn] at h0
        omega
      · intro _
        rw [hn]
        have heq := hmain (min m held) h1 h2
        have hq : sell_items draw a (some k) (some m) =
            sell_items draw a (some k) (some (min m held)) := by
          unfold sell_items
          simp only [hempty, hmem]
          have hmm : min (min m held) held = min m held := by omega
          rw [hmm]
        rw [hq, heq]
        have hb := drawSum_bounds draw lo hig hd 0 (min m held).toNat
        have hcast : (((min m held).toNat : Int)) = min m held := by omega
        refine ⟨rfl, ?_, ?_, rfl, rfl, rfl, ?_⟩
        · have := hb.1; rw [hcast] at this; exact this
        · have := hb.2; rw [hcast] at this; exact this
        · by_cases hfin : min m held = held
          · rw [if_pos hfin, if_pos (by omega : held - min m held ≤ 0)]
          · rw [if_neg hfin, if_neg (by omega : ¬ held - min m held ≤ 0)]

/-- Witness for the amended C6: selling 3 of 5 held bass with every
draw equal to 18 removes exactly 3, pays 54, and leaves 2 bass. -/
theorem sell_items_specific_key_spec_witness :
    (amendedSoldCount (some 3) 5 = 0 →
      sell_items (fun _ => 18) { wallet := 0, bank := 0, inventory := [("bass", 5)] }
        (some "bass") (some 3) =
        ({ wallet := 0, bank := 0, inventory := [("bass", 5)] }, [], 0)) ∧
    (0 < amendedSoldCount (some 3) 5 →
      (sell_items (fun _ => 18) { wallet := 0, bank := 0, inventory := [("bass", 5)] }
        (some "bass") (some 3)).2.2 =
        drawSum (fun _ => 18) 0 (amendedSoldCount (some 3) 5).toNat ∧
      amendedSoldCount (some 3) 5 * 18 ≤
        (sell_items (fun _ => 18) { wallet := 0, bank := 0, inventory := [("bass", 5)] }
          (some "bass") (some 3)).2.2 ∧
      (sell_items (fun _ => 18) { wallet := 0, bank := 0, inventory := [("bass", 5)] }
        (some "bass") (some 3)).2.2 ≤ amendedSoldCount (some 3) 5 * 19 ∧
      (sell_items (fun _ => 18) { wallet := 0, bank := 0, inventory := [("bass", 5)] }
        (some "bass") (some 3)).1.wallet =
        (0 : Int) + (sell_items (fun _ => 18)
          { wallet := 0, bank := 0, inventory := [("bass", 5)] } (some "bass") (some 3)).2.2 ∧
      (sell_items (fun _ => 18) { wallet := 0, bank := 0, inventory := [("bass", 5)] }
        (some "bass") (some 3)).1.bank = (0 : Int) ∧
      (sell_items (fun _ => 18) { wallet := 0, bank := 0, inventory := [("bass", 5)] }
        (some "bass") (some 3)).2.1 =
        [("bass", amendedSoldCount (some 3) 5,
          (sell_items (fun _ => 18) { wallet := 0, bank := 0, inventory := [("bass", 5)] }
            (some "bass") (some 3)).2.2)] ∧
      (sell_items (fun _ => 18) { wallet := 0, bank := 0, inventory := [("bass", 5)] }
        (some "bass") (some 3)).1.inventory =
        (if amendedSoldCount (some 3) 5 = 5 then
          alistPop [("bass", 5)] "bass"
        else alistSet [("bass", 5)] "bass" (5 - amendedSoldCount (some 3) 5))) :=
  sell_items_specific_key_spec (fun _ => 18)
    { wallet := 0, bank := 0, inventory := [("bass", 5)] } "bass"
    { name := "Bass", min_value := some 18, max_value := some 19, sellable := true }
    5 18 19 (some 3)
    (by decide) (by decide) (by decide) (by decide) (by decide) (by decide) (by decide)
    (fun _ => ⟨by norm_num, by norm_num⟩)

end PiBot
